import Mathlib

/-!
Verification of `excel_csv_processor.py` (class `ExcelCSVProcessor`).

The development shallowly embeds the three stages of the pipeline:
  * the merged-cell resolver `get_merged_cell_value` (source lines 39-60),
  * the instructions-column filler `fill_answer_instruction_column`
    (source lines 62-119), acting on grids of string cells,
  * the column merger `merge_columns_to_question_info` (source lines
    180-259), acting on record sets as produced by re-reading the CSV
    (empty cells become a missing-value sentinel, modelled as `none`),
  * the per-file orchestration of `process_all_files` after a successful
    Excel-to-CSV conversion (source lines 297-319).

Cells of the intermediate grid are strings (`convert_xlsx_to_csv`
stringifies every cell, line 156-159), so Python truthiness of a cell is
emptiness of the string and `str(cell).strip()` is `String.trim`.
-/

/-- Is `p` a prefix of the second list (character-wise)? -/
def isPrefixChars : List Char → List Char → Bool
  | [], _ => true
  | _ :: _, [] => false
  | p :: ps, c :: cs => p == c && isPrefixChars ps cs

/-- Does `pat` occur as a contiguous run inside the second list?  This is
Python's substring operator `in` on the underlying character sequences. -/
def charsContain (pat : List Char) : List Char → Bool
  | [] => pat.isEmpty
  | c :: cs => isPrefixChars pat (c :: cs) || charsContain pat cs

/-- Python `str.strip()` returns the empty string exactly when every
character is whitespace; `cell and str(cell).strip()` is therefore falsy
exactly when `isBlank cell` (the empty string is blank too). -/
def isBlank (s : String) : Bool := s.data.all (fun c => c.isWhitespace)

/-- Python `str.strip()`: drop whitespace from both ends. -/
def strTrim (s : String) : String :=
  ⟨((s.data.dropWhile Char.isWhitespace).reverse.dropWhile Char.isWhitespace).reverse⟩

/-- The header test of line 79: `header and "答题说明" in str(header)`. -/
def isInstrHeader (h : String) : Bool :=
  !(h == "") && charsContain "答题说明".data h.data

/-- First index (counting from `i`) whose element satisfies `p`; models the
`for i, header in enumerate(...)` search with `break` (lines 78-81) and
Python's `in df.columns` based column lookup. -/
def findIdxFrom (p : α → Bool) : Nat → List α → Option Nat
  | _, [] => none
  | i, a :: as => if p a then some i else findIdxFrom p (i + 1) as

/-- Index of the first element satisfying `p`. -/
def findIdxOf (p : α → Bool) (l : List α) : Option Nat :=
  findIdxFrom p 0 l

/-- `while len(current_row) <= col: current_row.append("")` (lines 108-109):
pad `row` with empty strings until its length is at least `n`. -/
def padTo (row : List String) (n : Nat) : List String :=
  row ++ List.replicate (n - row.length) ""

/-- One iteration of the fill loop (lines 103-116) on one row: pad the row
up to the instructions column, then either record a new `last_instruction`
(non-blank cell), write the pending instruction into a blank cell, or leave
the row alone.  Returns the updated `last_instruction` and the updated row. -/
def fillRow (col : Nat) (last : String) (row : List String) : String × List String :=
  let padded := padTo row (col + 1)
  let cell := padded.getD col ""
  if !(isBlank cell) then (cell, padded)
  else if !(last == "") then (last, padded.set col last)
  else (last, padded)

/-- The fill loop over the data rows: processes at most `n` rows
(`range(1, max_rows_other_cols)` gives `max_rows_other_cols - 1`
iterations, each guarded by `row_index < len(csv_data)`), threading
`last_instruction`. -/
def fillRows (col : Nat) : String → Nat → List (List String) → List (List String)
  | _, _, [] => []
  | _, 0, rows => rows
  | last, n + 1, row :: rows =>
    let p := fillRow col last row
    p.2 :: fillRows col p.1 n rows

/-- Inner loop of the `max_rows_other_cols` scan (lines 89-92) on one row:
is there a cell at an index other than `col` (indices counted from `c`)
whose trimmed string is non-blank? -/
def rowHasOtherAux (col : Nat) : Nat → List String → Bool
  | _, [] => false
  | c, cell :: rest =>
    (decide (c ≠ col) && !(isBlank cell)) || rowHasOtherAux col (c + 1) rest

/-- A row contributes to `max_rows_other_cols` iff some cell outside the
instructions column is non-blank. -/
def rowHasOther (col : Nat) (row : List String) : Bool :=
  rowHasOtherAux col 0 row

/-- The `max_rows_other_cols` scan (lines 87-92), rows counted from `r`:
the largest `r_idx + 1` over rows holding a non-blank cell outside column
`col`, and `0` when there is none. -/
def maxRowsAux (col : Nat) : Nat → List (List String) → Nat
  | _, [] => 0
  | r, row :: rows =>
    let rest := maxRowsAux col (r + 1) rows
    if rowHasOther col row then max (r + 1) rest else rest

/-- `max_rows_other_cols` before the zero fallback of lines 95-96. -/
def maxRowsOtherCols (col : Nat) (g : List (List String)) : Nat :=
  maxRowsAux col 0 g

/-- Body of `fill_answer_instruction_column` once the length guard has
passed (lines 76-119): locate the instructions column, compute the row
bound, run the fill loop, then truncate rows and columns. -/
def fillCore (header_row : List String) (rest : List (List String)) : List (List String) :=
  match findIdxOf isInstrHeader header_row with
  | none => header_row :: rest
  | some col =>
    let scanMax := maxRowsOtherCols col (header_row :: rest)
    let m := if scanMax = 0 then rest.length + 1 else scanMax
    ((header_row :: fillRows col "" (m - 1) rest).take m).map
      (fun row => row.take header_row.length)

/-- `fill_answer_instruction_column` (lines 62-119).  Grids with fewer than
two rows are returned unchanged (lines 73-74). -/
def fill_answer_instruction_column : List (List String) → List (List String)
  | [] => []
  | [r] => [r]
  | header_row :: r2 :: rows => fillCore header_row (r2 :: rows)

/-- A merged rectangular range of the worksheet (1-based bounds, as in
openpyxl's `merged_range.min_row` etc.). -/
structure MergedRange where
  minRow : Nat
  maxRow : Nat
  minCol : Nat
  maxCol : Nat
deriving DecidableEq

/-- `cell.coordinate in merged_range` (line 55). -/
def MergedRange.containsCell (mr : MergedRange) (r c : Nat) : Bool :=
  decide (mr.minRow ≤ r) && decide (r ≤ mr.maxRow) &&
    decide (mr.minCol ≤ c) && decide (c ≤ mr.maxCol)

/-- A worksheet: stored cell values by 1-based (row, column) address
(`none` models an empty/absent stored value) and the list of merged
ranges, in iteration order of `worksheet.merged_cells.ranges`. -/
structure Worksheet where
  value : Nat → Nat → Option String
  ranges : List MergedRange

/-- The `for merged_range in worksheet.merged_cells.ranges` loop with its
early `return` (lines 54-58): first merged range containing the address. -/
def findRange (r c : Nat) : List MergedRange → Option MergedRange
  | [] => none
  | mr :: rest => if mr.containsCell r c then some mr else findRange r c rest

/-- `get_merged_cell_value` (lines 39-60): the value at the top-left of the
first merged range containing the address, else the cell's own value. -/
def get_merged_cell_value (ws : Worksheet) (row col : Nat) : Option String :=
  match findRange row col ws.ranges with
  | some mr => ws.value mr.minRow mr.minCol
  | none => ws.value row col

/-- A record set as produced by `pd.read_csv`: a header list and one list
of values per record, positionally aligned with the headers; `none` is the
NaN missing-value sentinel read back for empty cells. -/
structure RecordSet where
  headers : List String
  rows : List (List (Option String))
deriving DecidableEq

/-- `row[name]`: value of the field named `name` in a record. -/
def getCol (headers : List String) (row : List (Option String)) (name : String) :
    Option String :=
  match findIdxOf (fun h => h == name) headers with
  | some i => row.getD i none
  | none => none

/-- `pd.notna(v) and str(v).strip()` (the inclusion gate used at lines
215-237): the value is present and non-blank after trimming. -/
def presentNonBlank : Option String → Bool
  | some s => !(isBlank s)
  | none => false

/-- `str(v).strip()` of a present value. -/
def trimVal (v : Option String) : String := strTrim (v.getD "")

/-- `option_columns = [f'选项{chr(65+i)}' for i in range(11)]` (line 205):
`选项A` through `选项K`. -/
def optionColumns : List String :=
  (List.range 11).map (fun i => "选项" ++ (Char.ofNat (65 + i)).toString)

/-- The per-record question-info block (lines 210-246): labeled sections in
the fixed order material content, instructions (only when that header
exists), question type, stem, correct answer, options `letter. value`
joined by single line breaks, the whole joined by double line breaks;
empty string when no section qualifies. -/
def questionInfo (headers : List String) (row : List (Option String)) : String :=
  let p1 :=
    if presentNonBlank (getCol headers row "材料内容") then
      ["材料内容：\n" ++ trimVal (getCol headers row "材料内容")] else []
  let p2 :=
    if headers.contains "答题说明" && presentNonBlank (getCol headers row "答题说明") then
      ["答题说明：\n" ++ trimVal (getCol headers row "答题说明")] else []
  let p3 :=
    if presentNonBlank (getCol headers row "*题目类型") then
      ["题目类型：\n" ++ trimVal (getCol headers row "*题目类型")] else []
  let p4 :=
    if presentNonBlank (getCol headers row "*题干") then
      ["题干：\n" ++ trimVal (getCol headers row "*题干")] else []
  let p5 :=
    if presentNonBlank (getCol headers row "*正确答案") then
      ["正确答案：\n" ++ trimVal (getCol headers row "*正确答案")] else []
  let options := optionColumns.filterMap (fun oc =>
    if headers.contains oc && presentNonBlank (getCol headers row oc) then
      some ((oc.toList.getLastD 'A').toString ++ ". " ++ trimVal (getCol headers row oc))
    else none)
  let p6 :=
    if options ≠ [] then ["选项：\n" ++ String.intercalate "\n" options] else []
  let parts := p1 ++ p2 ++ p3 ++ p4 ++ p5 ++ p6
  if parts ≠ [] then String.intercalate "\n\n" parts else ""

/-- `required_columns` (line 198). -/
def requiredColumns : List String := ["材料内容", "*题目类型", "*题干", "*正确答案"]

/-- `df['题目信息'] = question_info_list` (line 249): pandas column
assignment overwrites the column in place when a column of that name
already exists, and appends a new trailing column otherwise. -/
def addColumn (rs : RecordSet) (name : String) (vals : List String) : RecordSet :=
  match findIdxOf (fun h => h == name) rs.headers with
  | some i =>
    { headers := rs.headers
      rows := (rs.rows.zip vals).map (fun p => p.1.set i (some p.2)) }
  | none =>
    { headers := rs.headers ++ [name]
      rows := (rs.rows.zip vals).map (fun p => p.1 ++ [some p.2]) }

/-- Pure core of `merge_columns_to_question_info` (lines 180-255): `none`
when a required column is missing (the `return False` of line 202, in which
case no output file is written), otherwise the record set that is written
to the `_processed` output file. -/
def mergeColumns (rs : RecordSet) : Option RecordSet :=
  if requiredColumns.all (fun c => rs.headers.contains c) then
    some (addColumn rs "题目信息" (rs.rows.map (questionInfo rs.headers)))
  else none

/-- The three ways `merge_columns_to_question_info` can finish: normal
completion returning `True` (line 255), the missing-required-columns early
`return False` (line 202), and any other exception, caught by the
`except` clause which also returns `False` (lines 257-259). -/
inductive MergeOutcome where
  | ok
  | missingColumns
  | otherError
deriving DecidableEq

/-- The boolean actually returned to the caller: `True` only on normal
completion; both failure modes return `False` indistinguishably. -/
def mergeReturnValue : MergeOutcome → Bool
  | MergeOutcome.ok => true
  | MergeOutcome.missingColumns => false
  | MergeOutcome.otherError => false

/-- What `process_all_files` records for one file after a successful
Excel-to-CSV conversion (lines 305-319). -/
structure FileOutcome where
  countedSuccess : Bool
  recordedError : Bool
  finalName : String
  tempRenamed : Bool
deriving DecidableEq

/-- Per-file orchestration after `convert_xlsx_to_csv` succeeded (lines
305-319): a `True` merge return counts the file as a success with final
name `stem_processed.csv`; a `False` merge return renames the temp file to
`stem.csv`, still counts the file as a success, and records no error. -/
def processConvertedFile (stem : String) (mergeOk : Bool) : FileOutcome :=
  if mergeOk then
    { countedSuccess := true, recordedError := false
      finalName := stem ++ "_processed.csv", tempRenamed := false }
  else
    { countedSuccess := true, recordedError := false
      finalName := stem ++ ".csv", tempRenamed := true }


/-! ### Basic lemmas about the embedded operations -/

theorem findIdxFrom_bounds {α : Type} {p : α → Bool} :
    ∀ (l : List α) (i j : Nat), findIdxFrom p i l = some j → i ≤ j ∧ j < i + l.length := by
  intro l
  induction l with
  | nil => intro i j h; simp [findIdxFrom] at h
  | cons a as ih =>
    intro i j h
    simp only [findIdxFrom] at h
    split at h
    · injection h with h
      subst h
      simp only [List.length_cons]
      omega
    · have := ih (i + 1) j h
      simp only [List.length_cons]
      omega

theorem findIdxOf_lt_length {α : Type} {p : α → Bool} {l : List α} {j : Nat}
    (h : findIdxOf p l = some j) : j < l.length := by
  have := findIdxFrom_bounds l 0 j h
  omega

theorem findIdxFrom_eq_none {α : Type} {p : α → Bool} :
    ∀ (l : List α) (i : Nat), (∀ a ∈ l, p a = false) → findIdxFrom p i l = none := by
  intro l
  induction l with
  | nil => intro i _; rfl
  | cons a as ih =>
    intro i h
    simp only [findIdxFrom]
    rw [if_neg (by simp [h a (List.mem_cons_self a as)])]
    exact ih (i + 1) (fun b hb => h b (List.mem_cons_of_mem a hb))

theorem findIdxOf_eq_none {α : Type} {p : α → Bool} {l : List α}
    (h : ∀ a ∈ l, p a = false) : findIdxOf p l = none :=
  findIdxFrom_eq_none l 0 h

theorem padTo_length (row : List String) (n : Nat) :
    (padTo row n).length = max row.length n := by
  simp only [padTo, List.length_append, List.length_replicate]
  omega

theorem padTo_of_le {row : List String} {n : Nat} (h : n ≤ row.length) :
    padTo row n = row := by
  simp [padTo, Nat.sub_eq_zero_of_le h]

theorem fillRow_snd_length (col : Nat) (last : String) (row : List String) :
    (fillRow col last row).2.length = max row.length (col + 1) := by
  simp only [fillRow]
  split
  · exact padTo_length row (col + 1)
  · split
    · rw [List.length_set]; exact padTo_length row (col + 1)
    · exact padTo_length row (col + 1)

theorem fillRows_length (col : Nat) (last : String) (n : Nat) (rows : List (List String)) :
    (fillRows col last n rows).length = rows.length := by
  induction rows generalizing last n with
  | nil => cases n <;> rfl
  | cons row rows ih =>
    cases n with
    | zero => rfl
    | succ n => simp only [fillRows, List.length_cons, ih]

theorem isBlank_empty : isBlank "" = true := rfl

theorem rowHasOtherAux_append_blank (col : Nat) (row : List String) (k c : Nat) :
    rowHasOtherAux col c (row ++ List.replicate k "") = rowHasOtherAux col c row := by
  induction row generalizing c with
  | nil =>
    simp only [List.nil_append]
    induction k generalizing c with
    | zero => rfl
    | succ k ihk =>
      simp only [List.replicate_succ, rowHasOtherAux, isBlank_empty, Bool.not_true,
        Bool.and_false, Bool.false_or]
      exact ihk (c + 1)
  | cons cell rest ih =>
    simp only [List.cons_append, rowHasOtherAux, List.append_eq, ih (c + 1)]

theorem rowHasOtherAux_set (col : Nat) (row : List String) (v : String) :
    ∀ (c i : Nat), c + i = col →
      rowHasOtherAux col c (row.set i v) = rowHasOtherAux col c row := by
  induction row with
  | nil => intro c i _; rfl
  | cons cell rest ih =>
    intro c i hci
    cases i with
    | zero =>
      have hc : c = col := by omega
      subst hc
      simp [List.set_cons_zero, rowHasOtherAux]
    | succ j =>
      simp only [List.set_cons_succ, rowHasOtherAux]
      rw [ih (c + 1) j (by omega)]

theorem rowHasOther_fillRow (col : Nat) (last : String) (row : List String) :
    rowHasOther col (fillRow col last row).2 = rowHasOther col row := by
  have hpad : rowHasOther col (padTo row (col + 1)) = rowHasOther col row :=
    rowHasOtherAux_append_blank col row _ 0
  simp only [rowHasOther, fillRow]
  split
  · exact hpad
  · split
    · rw [rowHasOtherAux_set col _ _ 0 col (by omega)]
      exact hpad
    · exact hpad

theorem maxRowsAux_le (col : Nat) (rows : List (List String)) :
    ∀ (r : Nat), maxRowsAux col r rows ≤ r + rows.length := by
  induction rows with
  | nil => intro r; simp [maxRowsAux]
  | cons row rows ih =>
    intro r
    simp only [maxRowsAux, List.length_cons]
    split
    · have := ih (r + 1); omega
    · have := ih (r + 1); omega

theorem maxRowsAux_zero_or_lt (col : Nat) (rows : List (List String)) :
    ∀ (r : Nat), maxRowsAux col r rows = 0 ∨ r < maxRowsAux col r rows := by
  induction rows with
  | nil => intro r; left; rfl
  | cons row rows ih =>
    intro r
    simp only [maxRowsAux]
    split
    · right
      have := ih (r + 1)
      omega
    · have := ih (r + 1)
      omega

theorem maxRowsAux_fillRows (col : Nat) (rows : List (List String)) :
    ∀ (r : Nat) (last : String) (n : Nat),
      maxRowsAux col r (fillRows col last n rows) = maxRowsAux col r rows := by
  induction rows with
  | nil => intro r last n; cases n <;> rfl
  | cons row rows ih =>
    intro r last n
    cases n with
    | zero => rfl
    | succ n =>
      simp only [fillRows, maxRowsAux, rowHasOther_fillRow, ih (r + 1)]

theorem maxRowsAux_take (col : Nat) (rows : List (List String)) :
    ∀ (r k : Nat), maxRowsAux col r rows ≤ r + k →
      maxRowsAux col r (rows.take k) = maxRowsAux col r rows := by
  induction rows with
  | nil => intro r k _; simp
  | cons row rows ih =>
    intro r k hbound
    cases k with
    | zero =>
      simp only [List.take_zero, maxRowsAux] at hbound ⊢
      split at hbound <;> rename_i hro
      · rw [if_pos hro]
        rcases maxRowsAux_zero_or_lt col rows (r + 1) with h0 | hlt <;> omega
      · rw [if_neg hro]
        rcases maxRowsAux_zero_or_lt col rows (r + 1) with h0 | hlt <;> omega
    | succ k =>
      simp only [List.take_succ_cons, maxRowsAux] at hbound ⊢
      split at hbound <;> rename_i hro
      · simp only [if_pos hro]
        rw [ih (r + 1) k (by omega)]
      · simp only [if_neg hro]
        exact ih (r + 1) k (by omega)

theorem getD_set_self {α : Type} {l : List α} {i : Nat} (h : i < l.length) (a d : α) :
    (l.set i a).getD i d = a := by
  induction l generalizing i with
  | nil => simp at h
  | cons x xs ih =>
    cases i with
    | zero => rfl
    | succ j =>
      simp only [List.set_cons_succ, List.getD_cons_succ]
      exact ih (by simpa using h) 

theorem getD_padTo (row : List String) (col : Nat) :
    (padTo (padTo row (col + 1)) (col + 1)).getD col "" = (padTo row (col + 1)).getD col "" := by
  rw [padTo_of_le (by rw [padTo_length]; omega)]

theorem fillRow_idem {col : Nat} {last : String} (row : List String)
    (h : last = "" ∨ isBlank last = false) :
    fillRow col last (fillRow col last row).2 = fillRow col last row ∧
      ((fillRow col last row).1 = "" ∨ isBlank (fillRow col last row).1 = false) := by
  have hple : col + 1 ≤ (padTo row (col + 1)).length := by rw [padTo_length]; omega
  have hpp : padTo (padTo row (col + 1)) (col + 1) = padTo row (col + 1) := padTo_of_le hple
  have hpps : padTo ((padTo row (col + 1)).set col last) (col + 1)
      = (padTo row (col + 1)).set col last := padTo_of_le (by rw [List.length_set]; exact hple)
  simp only [fillRow]
  split <;> rename_i hcell
  · refine ⟨?_, Or.inr (by simpa using hcell)⟩
    simp only [fillRow, hpp]
    rw [if_pos hcell]
  · split <;> rename_i hlast
    · have hlb : isBlank last = false := by
        rcases h with h | h
        · subst h; simp at hlast
        · exact h
      refine ⟨?_, h⟩
      simp only [fillRow, hpps]
      rw [getD_set_self (by omega : col < (padTo row (col + 1)).length) last ""]
      rw [if_pos (by simp [hlb])]
    · refine ⟨?_, h⟩
      simp only [fillRow, hpp]
      simp only [if_neg hcell, if_neg hlast]

theorem fillRows_idem_take (col : Nat) (rows : List (List String)) :
    ∀ (last : String) (n : Nat), (last = "" ∨ isBlank last = false) →
      fillRows col last n ((fillRows col last n rows).take n) =
        (fillRows col last n rows).take n := by
  induction rows with
  | nil =>
    intro last n _
    cases n <;> rfl
  | cons row rows ih =>
    intro last n hlast
    cases n with
    | zero => rfl
    | succ n =>
      obtain ⟨hrow, hlast2⟩ := @fillRow_idem col last row hlast
      simp only [fillRows, List.take_succ_cons]
      rw [hrow]
      rw [ih (fillRow col last row).1 n hlast2]

theorem fillRows_idem_full (col : Nat) (rows : List (List String)) (last : String) (n : Nat)
    (hlast : last = "" ∨ isBlank last = false) (hn : rows.length ≤ n) :
    fillRows col last n (fillRows col last n rows) = fillRows col last n rows := by
  have htake : (fillRows col last n rows).take n = fillRows col last n rows :=
    List.take_of_length_le (by rw [fillRows_length]; exact hn)
  have := fillRows_idem_take col rows last n hlast
  rwa [htake] at this

theorem fillRows_mem_le (col L : Nat) (hcol : col < L) (rows : List (List String))
    (hrows : ∀ r ∈ rows, r.length ≤ L) :
    ∀ (last : String) (n : Nat), ∀ r ∈ fillRows col last n rows, r.length ≤ L := by
  induction rows with
  | nil =>
    intro last n r hr
    cases n <;> simp [fillRows] at hr
  | cons row rows ih =>
    intro last n r hr
    cases n with
    | zero =>
      exact hrows r hr
    | succ n =>
      simp only [fillRows, List.mem_cons] at hr
      rcases hr with hr | hr
      · subst hr
        rw [fillRow_snd_length]
        have := hrows row (List.mem_cons_self row rows)
        omega
      · exact ih (fun q hq => hrows q (List.mem_cons_of_mem row hq)) _ _ r hr

theorem fillRows_mem_ge (col L : Nat) (rows : List (List String))
    (hrows : ∀ r ∈ rows, L ≤ r.length) :
    ∀ (last : String) (n : Nat), ∀ r ∈ fillRows col last n rows, L ≤ r.length := by
  induction rows with
  | nil =>
    intro last n r hr
    cases n <;> simp [fillRows] at hr
  | cons row rows ih =>
    intro last n r hr
    cases n with
    | zero =>
      exact hrows r hr
    | succ n =>
      simp only [fillRows, List.mem_cons] at hr
      rcases hr with hr | hr
      · subst hr
        rw [fillRow_snd_length]
        have := hrows row (List.mem_cons_self row rows)
        omega
      · exact ih (fun q hq => hrows q (List.mem_cons_of_mem row hq)) _ _ r hr

theorem map_take_of_le {L : Nat} (l : List (List String)) (h : ∀ r ∈ l, r.length ≤ L) :
    l.map (fun r => r.take L) = l := by
  induction l with
  | nil => rfl
  | cons x xs ih =>
    simp only [List.map_cons]
    rw [List.take_of_length_le (h x (List.mem_cons_self x xs)),
      ih (fun q hq => h q (List.mem_cons_of_mem x hq))]

theorem fill_cons_cons (hr r2 : List String) (rows : List (List String)) :
    fill_answer_instruction_column (hr :: r2 :: rows) = fillCore hr (r2 :: rows) := rfl

theorem fillCore_active (hr : List String) (rest : List (List String)) (col : Nat)
    (hfind : findIdxOf isInstrHeader hr = some col) :
    fillCore hr rest =
      ((hr :: fillRows col ""
          ((if maxRowsOtherCols col (hr :: rest) = 0 then rest.length + 1
            else maxRowsOtherCols col (hr :: rest)) - 1) rest).take
        (if maxRowsOtherCols col (hr :: rest) = 0 then rest.length + 1
         else maxRowsOtherCols col (hr :: rest))).map (fun row => row.take hr.length) := by
  simp only [fillCore, hfind]

/-! ### Claim theorems -/

/-- Claim C10: a grid with fewer than two rows (empty, or a lone header
row) is returned by `fill_answer_instruction_column` completely unchanged —
no column search, no truncation, no padding (source lines 73-74). -/
theorem c10_short_grid_unchanged (g : List (List String)) (h : g.length < 2) :
    fill_answer_instruction_column g = g := by
  match g with
  | [] => rfl
  | [r] => rfl
  | a :: b :: rest => simp only [List.length_cons] at h; omega

/-- Witness for C10 at a one-row grid whose single (header) row contains
the instructions marker and is longer than one cell. -/
theorem c10_witness :
    ([["答题说明", "x", "y", "z"]] : List (List String)).length < 2 ∧
      fill_answer_instruction_column [["答题说明", "x", "y", "z"]] =
        [["答题说明", "x", "y", "z"]] :=
  ⟨by decide, c10_short_grid_unchanged [["答题说明", "x", "y", "z"]] (by decide)⟩

/-- Counterexample to claim C3: when the merge stage fails with an
exception other than missing-required-columns (modelled by
`MergeOutcome.otherError`, the catch-all `except` of lines 257-259 which
returns `False`), `process_all_files` does NOT record an error, counts the
file as a success, and DOES promote (rename) the temp file to the
non-`_processed` final name (lines 311-315) — contradicting the claim that
the file is recorded as an error and the temp file is not promoted. -/
theorem c3_counterexample :
    (processConvertedFile "f" (mergeReturnValue MergeOutcome.otherError)).recordedError
        = false ∧
      (processConvertedFile "f" (mergeReturnValue MergeOutcome.otherError)).countedSuccess
        = true ∧
      (processConvertedFile "f" (mergeReturnValue MergeOutcome.otherError)).tempRenamed
        = true := by
  decide

/-- Claim C3 (amended): `merge_columns_to_question_info` returns `False`
both on the missing-required-columns condition and on any other exception
(its catch-all `except` swallows them all), and the caller treats every
`False` identically: the file is counted as a success, no error is
recorded, and the temp file IS promoted to the non-`_processed` name. -/
theorem c3_merge_failure_promotes_temp (stem : String) (res : MergeOutcome)
    (h : res ≠ MergeOutcome.ok) :
    processConvertedFile stem (mergeReturnValue res) =
      { countedSuccess := true, recordedError := false,
        finalName := stem ++ ".csv", tempRenamed := true } := by
  cases res with
  | ok => exact absurd rfl h
  | missingColumns => rfl
  | otherError => rfl

/-- Witness for the amended C3 at a concrete file stem and the
other-exception outcome. -/
theorem c3_witness :
    MergeOutcome.otherError ≠ MergeOutcome.ok ∧
      processConvertedFile "file" (mergeReturnValue MergeOutcome.otherError) =
        { countedSuccess := true, recordedError := false,
          finalName := "file" ++ ".csv", tempRenamed := true } :=
  ⟨by decide, c3_merge_failure_promotes_temp "file" MergeOutcome.otherError (by decide)⟩

/-- Counterexample to claim C1: on the grid
`[["答题说明", "b"], ["x"], ["", "y"]]` an instructions column is found
(index 0) and the fill stage retains the data row `["x"]`, which has 1 cell
while the header row has 2: the truncation `row[:len(header_row)]` of line
119 only drops surplus trailing cells and never pads short rows, so the
output is not rectangular. -/
theorem c1_counterexample :
    fill_answer_instruction_column [["答题说明", "b"], ["x"], ["", "y"]] =
        [["答题说明", "b"], ["x"], ["x", "y"]] ∧
      ∃ row ∈ fill_answer_instruction_column [["答题说明", "b"], ["x"], ["", "y"]],
        row.length ≠ (["答题说明", "b"] : List String).length := by
  decide

/-- Claim C1 (amended): when every input row has at least `header_length`
cells — as is the case for the rectangular grids produced by the
flattening stage — every row retained by the fill stage has exactly
`header_length` cells.  (In general short rows can survive with fewer
cells, see the counterexample.) -/
theorem c1_rectangular_output (hr : List String) (rest : List (List String)) (col : Nat)
    (hfind : findIdxOf isInstrHeader hr = some col) (hne : rest ≠ [])
    (hlen : ∀ row ∈ rest, hr.length ≤ row.length) :
    ∀ row ∈ fill_answer_instruction_column (hr :: rest), row.length = hr.length := by
  obtain ⟨r2, rows, rfl⟩ : ∃ a b, rest = a :: b := by
    cases rest with
    | nil => exact absurd rfl hne
    | cons a b => exact ⟨a, b, rfl⟩
  intro row hrow
  rw [fill_cons_cons, fillCore_active _ _ col hfind] at hrow
  obtain ⟨r0, hr0, rfl⟩ := List.mem_map.mp hrow
  have hr0mem : r0 ∈ hr :: fillRows col "" _ (r2 :: rows) := List.take_subset _ _ hr0
  have hge : hr.length ≤ r0.length := by
    rcases List.mem_cons.mp hr0mem with h | h
    · subst h; exact Nat.le_refl _
    · exact fillRows_mem_ge col hr.length (r2 :: rows) hlen _ _ r0 h
  rw [List.length_take]
  omega

/-- Witness for the amended C1 at a concrete rectangular grid. -/
theorem c1_witness :
    findIdxOf isInstrHeader ["答题说明", "b"] = some 0 ∧
      ([["x", "y"], ["", "z"]] : List (List String)) ≠ [] ∧
      (∀ row ∈ ([["x", "y"], ["", "z"]] : List (List String)),
        (["答题说明", "b"] : List String).length ≤ row.length) ∧
      ∀ row ∈ fill_answer_instruction_column [["答题说明", "b"], ["x", "y"], ["", "z"]],
        row.length = (["答题说明", "b"] : List String).length :=
  ⟨by decide, by decide, by decide,
    c1_rectangular_output ["答题说明", "b"] [["x", "y"], ["", "z"]] 0
      (by decide) (by decide) (by decide)⟩

/-- Claim C7: with an instructions column found, the fill stage's output
has at most `max_rows_other_cols` rows, where `max_rows_other_cols` is the
largest `row_index + 1` over non-blank cells outside the instructions
column, with fallback to the full grid length when the scan finds nothing
(lines 86-96); in the fallback case the output keeps exactly the full
grid's row count (no collapse to zero rows). -/
theorem c7_row_bound (hr : List String) (rest : List (List String)) (col : Nat)
    (hfind : findIdxOf isInstrHeader hr = some col) (hne : rest ≠ []) :
    ((fill_answer_instruction_column (hr :: rest)).length ≤
        (if maxRowsOtherCols col (hr :: rest) = 0 then (hr :: rest).length
         else maxRowsOtherCols col (hr :: rest))) ∧
      (maxRowsOtherCols col (hr :: rest) = 0 →
        (fill_answer_instruction_column (hr :: rest)).length = (hr :: rest).length) := by
  obtain ⟨r2, rows, rfl⟩ : ∃ a b, rest = a :: b := by
    cases rest with
    | nil => exact absurd rfl hne
    | cons a b => exact ⟨a, b, rfl⟩
  rw [fill_cons_cons, fillCore_active _ _ col hfind]
  rw [List.length_map, List.length_take]
  simp only [List.length_cons, fillRows_length]
  by_cases hs : maxRowsOtherCols col (hr :: r2 :: rows) = 0
  · rw [if_pos hs]
    simp [hs]
  · rw [if_neg hs]
    refine ⟨?_, fun h => (hs h).elim⟩
    omega

/-- Witness for C7 at a grid whose non-instructions columns are entirely
blank, exercising the full-grid-length fallback. -/
theorem c7_witness :
    findIdxOf isInstrHeader ["答题说明"] = some 0 ∧
      ([[""], [""]] : List (List String)) ≠ [] ∧
      (((fill_answer_instruction_column [["答题说明"], [""], [""]]).length ≤
          (if maxRowsOtherCols 0 [["答题说明"], [""], [""]] = 0
           then ([["答题说明"], [""], [""]] : List (List String)).length
           else maxRowsOtherCols 0 [["答题说明"], [""], [""]])) ∧
        (maxRowsOtherCols 0 [["答题说明"], [""], [""]] = 0 →
          (fill_answer_instruction_column [["答题说明"], [""], [""]]).length =
            ([["答题说明"], [""], [""]] : List (List String)).length)) :=
  ⟨by decide, by decide, c7_row_bound ["答题说明"] [[""], [""]] 0 (by decide) (by decide)⟩

theorem findRange_eq_some (r c : Nat) (l : List MergedRange) :
    ∀ (mr : MergedRange), mr ∈ l → mr.containsCell r c = true →
      (∀ mr2 ∈ l, mr2.containsCell r c = true → mr2 = mr) →
      findRange r c l = some mr := by
  induction l with
  | nil => intro mr hmem; cases hmem
  | cons a as ih =>
    intro mr hmem hcont huniq
    by_cases ha : a.containsCell r c = true
    · have hamr : a = mr := huniq a (List.mem_cons_self a as) ha
      subst hamr
      simp [findRange, ha]
    · have hmr : mr ∈ as := by
        rcases List.mem_cons.mp hmem with h | h
        · exact absurd (h ▸ hcont) ha
        · exact h
      simp only [findRange, if_neg ha]
      exact ih mr hmr hcont (fun mr2 h2 hc2 => huniq mr2 (List.mem_cons_of_mem a h2) hc2)

theorem findRange_eq_none (r c : Nat) (l : List MergedRange)
    (h : ∀ mr ∈ l, mr.containsCell r c = false) : findRange r c l = none := by
  induction l with
  | nil => rfl
  | cons a as ih =>
    have ha : ¬(a.containsCell r c = true) := by simp [h a (List.mem_cons_self a as)]
    simp only [findRange, if_neg ha]
    exact ih (fun mr hmr => h mr (List.mem_cons_of_mem a hmr))

/-- Claim C5: `get_merged_cell_value` resolves an address inside a merged
range (the ranges being non-overlapping, as in a well-formed worksheet) to
the value stored at that range's top-left cell `(min_row, min_col)`, and
resolves an address inside no merged range to the cell's own stored
value (lines 39-60). -/
theorem c5_merged_cell_resolution (ws : Worksheet) (r c : Nat) :
    (∀ mr, mr ∈ ws.ranges → mr.containsCell r c = true →
      (∀ mr2 ∈ ws.ranges, mr2.containsCell r c = true → mr2 = mr) →
      get_merged_cell_value ws r c = ws.value mr.minRow mr.minCol) ∧
    ((∀ mr ∈ ws.ranges, mr.containsCell r c = false) →
      get_merged_cell_value ws r c = ws.value r c) := by
  constructor
  · intro mr hmem hcont huniq
    unfold get_merged_cell_value
    rw [findRange_eq_some r c ws.ranges mr hmem hcont huniq]
  · intro hnone
    unfold get_merged_cell_value
    rw [findRange_eq_none r c ws.ranges hnone]

/-- Witness for C5: a worksheet with the single merged range rows 1-2 x
columns 1-3; the member cell (2,3) resolves to the stored value of (1,1),
and the outside cell (5,5) resolves to its own stored value. -/
theorem c5_witness :
    get_merged_cell_value
        ⟨fun r c => if r == 1 && c == 1 then some "TL" else some "own", [⟨1, 2, 1, 3⟩]⟩ 2 3 =
      (fun r c => if r == 1 && c == 1 then some "TL" else some "own" : Nat → Nat → Option String) 1 1 ∧
    get_merged_cell_value
        ⟨fun r c => if r == 1 && c == 1 then some "TL" else some "own", [⟨1, 2, 1, 3⟩]⟩ 5 5 =
      (fun r c => if r == 1 && c == 1 then some "TL" else some "own" : Nat → Nat → Option String) 5 5 :=
  ⟨(c5_merged_cell_resolution
      ⟨fun r c => if r == 1 && c == 1 then some "TL" else some "own", [⟨1, 2, 1, 3⟩]⟩ 2 3).1
      ⟨1, 2, 1, 3⟩ (by decide) (by decide) (by decide),
    (c5_merged_cell_resolution
      ⟨fun r c => if r == 1 && c == 1 then some "TL" else some "own", [⟨1, 2, 1, 3⟩]⟩ 5 5).2
      (by decide)⟩

theorem contains_of_mem {l : List String} {a : String} (h : a ∈ l) :
    l.contains a = true := by
  simpa using h

/-- Claim C4: a record set missing one of the four required headers makes
`merge_columns_to_question_info` report failure (lines 197-202) without
producing a merged record set (no `_processed` file is written), and the
caller then promotes the flattened grid to the non-`_processed` final name
(lines 311-315). -/
theorem c4_missing_required_columns (rs : RecordSet) (stem c : String)
    (hc : c ∈ requiredColumns) (hmiss : c ∉ rs.headers) :
    mergeColumns rs = none ∧
      processConvertedFile stem (mergeColumns rs).isSome =
        { countedSuccess := true, recordedError := false,
          finalName := stem ++ ".csv", tempRenamed := true } := by
  have hnone : mergeColumns rs = none := by
    unfold mergeColumns
    rw [if_neg]
    intro hall
    rw [List.all_eq_true] at hall
    have := hall c hc
    simp at this
    exact hmiss this
  refine ⟨hnone, ?_⟩
  rw [hnone]
  rfl

/-- Witness for C4: a record set lacking `材料内容`. -/
theorem c4_witness :
    mergeColumns ⟨["*题目类型", "*题干", "*正确答案"], [[some "x", some "y", some "z"]]⟩ = none ∧
      processConvertedFile "f4"
          (mergeColumns ⟨["*题目类型", "*题干", "*正确答案"],
            [[some "x", some "y", some "z"]]⟩).isSome =
        { countedSuccess := true, recordedError := false,
          finalName := "f4" ++ ".csv", tempRenamed := true } :=
  c4_missing_required_columns ⟨["*题目类型", "*题干", "*正确答案"], [[some "x", some "y", some "z"]]⟩
    "f4" "材料内容" (by decide) (by decide)

/-- Claim C8: for a record with material content, instructions, question
type, stem, correct answer present and non-blank and options A and C
populated with B blank, the derived block lists the sections in the fixed
order with exactly one blank line (a double line break) between sections
and only `A.`/`C.` option lines; and a record with zero qualifying
sections still receives the new field with the empty string as value
(lines 210-252). -/
theorem c8_section_order :
    questionInfo
        ["材料内容", "答题说明", "*题目类型", "*题干", "*正确答案", "选项A", "选项B", "选项C"]
        [some "M", some "I", some "T", some "S", some "R", some "optA", some "", some "optC"] =
      "材料内容：\nM\n\n答题说明：\nI\n\n题目类型：\nT\n\n题干：\nS\n\n正确答案：\nR\n\n选项：\nA. optA\nC. optC" ∧
    questionInfo ["材料内容", "*题目类型", "*题干", "*正确答案"] [none, none, none, none] = "" ∧
    mergeColumns ⟨["材料内容", "*题目类型", "*题干", "*正确答案"], [[none, none, none, none]]⟩ =
      some ⟨["材料内容", "*题目类型", "*题干", "*正确答案", "题目信息"],
        [[none, none, none, none, some ""]]⟩ := by
  decide

theorem zip_map_self {α β γ : Type} (f : α → β) (g : α → β → γ) :
    ∀ l : List α, (l.zip (l.map f)).map (fun p => g p.1 p.2) = l.map (fun a => g a (f a)) := by
  intro l
  induction l with
  | nil => rfl
  | cons a as ih => simp only [List.map_cons, List.zip_cons_cons, ih]

/-- Counterexample to claim C9: a record set that already contains a
`题目信息` column is accepted by the merge stage (all required headers are
present), but `df['题目信息'] = ...` then overwrites that column in place:
the output has the same headers as the input (no new trailing field is
added) and the original `题目信息` field's values are not preserved. -/
theorem c9_counterexample :
    mergeColumns ⟨["材料内容", "*题目类型", "*题干", "*正确答案", "题目信息"],
        [[some "m", some "t", some "s", some "a", some "old"]]⟩ =
      some ⟨["材料内容", "*题目类型", "*题干", "*正确答案", "题目信息"],
        [[some "m", some "t", some "s", some "a",
          some "材料内容：\nm\n\n题目类型：\nt\n\n题干：\ns\n\n正确答案：\na"]]⟩ ∧
    (mergeColumns ⟨["材料内容", "*题目类型", "*题干", "*正确答案", "题目信息"],
        [[some "m", some "t", some "s", some "a", some "old"]]⟩).map RecordSet.headers =
      some ["材料内容", "*题目类型", "*题干", "*正确答案", "题目信息"] ∧
    (mergeColumns ⟨["材料内容", "*题目类型", "*题干", "*正确答案", "题目信息"],
        [[some "m", some "t", some "s", some "a", some "old"]]⟩).map RecordSet.rows ≠
      some [[some "m", some "t", some "s", some "a", some "old"]] := by
  decide

/-- Claim C9 (amended): for a record set that contains all four required
headers and does not already contain a `题目信息` column, the merge is
strictly additive: the output keeps every original field, the field
order, the record count and the record order, and differs only by one new
trailing `题目信息` field per record (lines 248-252). -/
theorem c9_merge_additive (rs : RecordSet)
    (hall : ∀ c ∈ requiredColumns, c ∈ rs.headers)
    (hno : "题目信息" ∉ rs.headers) :
    mergeColumns rs =
      some ⟨rs.headers ++ ["题目信息"],
        rs.rows.map (fun r => r ++ [some (questionInfo rs.headers r)])⟩ := by
  unfold mergeColumns
  rw [if_pos]
  · unfold addColumn
    have hfind : findIdxOf (fun h => h == "题目信息") rs.headers = none := by
      refine findIdxOf_eq_none (fun a ha => ?_)
      cases hbe : a == "题目信息" with
      | false => rfl
      | true =>
        rw [beq_iff_eq] at hbe
        exact absurd (hbe ▸ ha) hno
    rw [hfind]
    rw [zip_map_self (questionInfo rs.headers) (fun r v => r ++ [some v]) rs.rows]
  · rw [List.all_eq_true]
    intro c hc
    exact contains_of_mem (hall c hc)

/-- Witness for the amended C9 at a concrete record set with the four
required headers and one record. -/
theorem c9_witness :
    (∀ c ∈ requiredColumns,
        c ∈ (⟨["材料内容", "*题目类型", "*题干", "*正确答案"],
          [[some "m", none, some "s", some "a"]]⟩ : RecordSet).headers) ∧
      "题目信息" ∉ (⟨["材料内容", "*题目类型", "*题干", "*正确答案"],
          [[some "m", none, some "s", some "a"]]⟩ : RecordSet).headers ∧
      mergeColumns ⟨["材料内容", "*题目类型", "*题干", "*正确答案"],
          [[some "m", none, some "s", some "a"]]⟩ =
        some ⟨(⟨["材料内容", "*题目类型", "*题干", "*正确答案"],
            [[some "m", none, some "s", some "a"]]⟩ : RecordSet).headers ++ ["题目信息"],
          (⟨["材料内容", "*题目类型", "*题干", "*正确答案"],
            [[some "m", none, some "s", some "a"]]⟩ : RecordSet).rows.map
            (fun r => r ++ [some (questionInfo (⟨["材料内容", "*题目类型", "*题干", "*正确答案"],
              [[some "m", none, some "s", some "a"]]⟩ : RecordSet).headers r)])⟩ :=
  ⟨by decide, by decide,
    c9_merge_additive ⟨["材料内容", "*题目类型", "*题干", "*正确答案"],
      [[some "m", none, some "s", some "a"]]⟩ (by decide) (by decide)⟩

theorem fillCore_shape (hr : List String) (rest : List (List String)) (col : Nat)
    (hfind : findIdxOf isInstrHeader hr = some col)
    (hle : ∀ row ∈ rest, row.length ≤ hr.length) (m : Nat)
    (hm : m = if maxRowsOtherCols col (hr :: rest) = 0 then rest.length + 1
      else maxRowsOtherCols col (hr :: rest))
    (hm1 : 1 ≤ m) :
    fillCore hr rest = hr :: (fillRows col "" (m - 1) rest).take (m - 1) := by
  have hcol : col < hr.length := findIdxOf_lt_length hfind
  rw [fillCore_active hr rest col hfind, ← hm]
  obtain ⟨k, rfl⟩ : ∃ k, m = k + 1 := ⟨m - 1, by omega⟩
  rw [List.take_succ_cons, List.map_cons, List.take_length, Nat.add_sub_cancel]
  rw [map_take_of_le _ (fun r hmem => fillRows_mem_le col hr.length hcol rest hle "" k r
    (List.take_subset _ _ hmem))]

theorem fillCore_idem (hr : List String) (rest : List (List String))
    (hle : ∀ row ∈ rest, row.length ≤ hr.length) :
    fill_answer_instruction_column (fillCore hr rest) = fillCore hr rest := by
  cases hfind : findIdxOf isInstrHeader hr with
  | none =>
    have hcore : fillCore hr rest = hr :: rest := by
      simp [fillCore, hfind]
    rw [hcore]
    cases rest with
    | nil => rfl
    | cons r2 rows =>
      rw [fill_cons_cons]
      simp [fillCore, hfind]
  | some col =>
    have hcol : col < hr.length := findIdxOf_lt_length hfind
    have hsle : maxRowsAux col 0 (hr :: rest) ≤ rest.length + 1 := by
      have h := maxRowsAux_le col (hr :: rest) 0
      simp only [List.length_cons] at h
      omega
    have hA : maxRowsAux col 1 rest ≤ maxRowsAux col 0 (hr :: rest) := by
      simp only [maxRowsAux, Nat.zero_add]
      split <;> omega
    obtain ⟨m, hm⟩ : ∃ x, x = (if maxRowsOtherCols col (hr :: rest) = 0 then rest.length + 1
        else maxRowsOtherCols col (hr :: rest)) := ⟨_, rfl⟩
    have hm2 : m = if maxRowsAux col 0 (hr :: rest) = 0 then rest.length + 1
        else maxRowsAux col 0 (hr :: rest) := hm
    have hm1 : 1 ≤ m := by rw [hm2]; split <;> omega
    have hmle : m ≤ rest.length + 1 := by rw [hm2]; split <;> omega
    have hAm : maxRowsAux col 1 rest ≤ m := by rw [hm2]; split <;> omega
    have hshape := fillCore_shape hr rest col hfind hle m hm hm1
    rw [hshape]
    have hFlen : (fillRows col "" (m - 1) rest).length = rest.length :=
      fillRows_length col "" (m - 1) rest
    have hTlen : ((fillRows col "" (m - 1) rest).take (m - 1)).length = m - 1 := by
      rw [List.length_take, hFlen]
      omega
    have hTfill : fillRows col "" (m - 1) ((fillRows col "" (m - 1) rest).take (m - 1)) =
        (fillRows col "" (m - 1) rest).take (m - 1) :=
      fillRows_idem_take col rest "" (m - 1) (Or.inl rfl)
    have hTle : ∀ r ∈ (fillRows col "" (m - 1) rest).take (m - 1), r.length ≤ hr.length :=
      fun r hmem => fillRows_mem_le col hr.length hcol rest hle "" (m - 1) r
        (List.take_subset _ _ hmem)
    have hscan2 : maxRowsAux col 0 (hr :: (fillRows col "" (m - 1) rest).take (m - 1)) =
        maxRowsAux col 0 (hr :: rest) := by
      have hT1 : maxRowsAux col 1 ((fillRows col "" (m - 1) rest).take (m - 1)) =
          maxRowsAux col 1 rest := by
        rw [maxRowsAux_take col (fillRows col "" (m - 1) rest) 1 (m - 1)
          (by rw [maxRowsAux_fillRows]; omega)]
        exact maxRowsAux_fillRows col rest 1 "" (m - 1)
      simp only [maxRowsAux, Nat.zero_add, hT1]
    cases hTc : (fillRows col "" (m - 1) rest).take (m - 1) with
    | nil => rfl
    | cons t ts =>
      rw [fill_cons_cons]
      have hlen2 : (t :: ts).length = m - 1 := by rw [← hTc]; exact hTlen
      have hsc : maxRowsOtherCols col (hr :: t :: ts) = maxRowsAux col 0 (hr :: rest) := by
        show maxRowsAux col 0 (hr :: t :: ts) = _
        rw [← hTc]
        exact hscan2
      have hmB : m = if maxRowsOtherCols col (hr :: t :: ts) = 0 then (t :: ts).length + 1
          else maxRowsOtherCols col (hr :: t :: ts) := by
        rw [hsc, hlen2]
        split <;> rename_i h0
        · omega
        · rw [hm2, if_neg h0]
      have hshape2 := fillCore_shape hr (t :: ts) col hfind (hTc ▸ hTle) m hmB hm1
      rw [hshape2, ← hTc, hTfill]
      rw [List.take_of_length_le (le_of_eq hTlen)]

/-- Counterexample to claim C2: the fill stage is not idempotent.  On
`[["答题说明", "b"], ["", "", "x"]]` the only non-blank cell of the data
row sits beyond the header's length, so the first run truncates it away
(output `[["答题说明", "b"], ["", ""]]`), and a second run then recomputes
a smaller `max_rows_other_cols` and drops the now-blank data row entirely
(output `[["答题说明", "b"]]`). -/
theorem c2_counterexample :
    fill_answer_instruction_column
        (fill_answer_instruction_column [["答题说明", "b"], ["", "", "x"]]) ≠
      fill_answer_instruction_column [["答题说明", "b"], ["", "", "x"]] := by
  decide

/-- Claim C2 (amended): the fill stage is idempotent on every grid in
which no row is longer than the header row — in particular on the
rectangular grids produced by the flattening stage.  (Rows longer than the
header can lose, to the column truncation, the very cells that determined
`max_rows_other_cols`, making a second run truncate further, see the
counterexample.) -/
theorem c2_fill_idempotent (g : List (List String))
    (hle : ∀ row ∈ g, row.length ≤ (g.headD []).length) :
    fill_answer_instruction_column (fill_answer_instruction_column g) =
      fill_answer_instruction_column g := by
  cases g with
  | nil => rfl
  | cons hr rest =>
    cases rest with
    | nil => rfl
    | cons r2 rows =>
      rw [fill_cons_cons]
      exact fillCore_idem hr (r2 :: rows)
        (fun row hrow => hle row (List.mem_cons_of_mem hr hrow))

/-- Witness for the amended C2 at a concrete rectangular grid. -/
theorem c2_witness :
    (∀ row ∈ ([["答题说明", "b"], ["x", ""], ["", "y"]] : List (List String)),
        row.length ≤ (([["答题说明", "b"], ["x", ""], ["", "y"]] :
          List (List String)).headD []).length) ∧
      fill_answer_instruction_column
          (fill_answer_instruction_column [["答题说明", "b"], ["x", ""], ["", "y"]]) =
        fill_answer_instruction_column [["答题说明", "b"], ["x", ""], ["", "y"]] :=
  ⟨by decide, c2_fill_idempotent [["答题说明", "b"], ["x", ""], ["", "y"]] (by decide)⟩

theorem fillRow_nonblank_cons (last x y : String) (hx : isBlank x = false) :
    fillRow 0 last [x, y] = (x, [x, y]) := by
  simp [fillRow, padTo, hx]

theorem fillRow_blank_cons (last y : String) (hl : (last == "") = false) :
    fillRow 0 last ["", y] = (last, [last, y]) := by
  simp [fillRow, padTo, isBlank_empty, hl]

/-- Claim C6: on a six-row grid whose instructions column (found at index
0) holds the data-row values `["X", "", "", "Y", ""]` and whose other
column is non-blank in all five data rows, the fill stage forward-fills
the column to `["X", "X", "X", "Y", "Y"]` and leaves the header row —
in particular the header cell of the instructions column — unmodified. -/
theorem c6_fill_example (h a b c d e : String)
    (ha : isBlank a = false) (hb : isBlank b = false) (hc : isBlank c = false)
    (hd : isBlank d = false) (he : isBlank e = false) :
    fill_answer_instruction_column
        [["答题说明", h], ["X", a], ["", b], ["", c], ["Y", d], ["", e]] =
      [["答题说明", h], ["X", a], ["X", b], ["X", c], ["Y", d], ["Y", e]] := by
  have hfind : findIdxOf isInstrHeader ["答题说明", h] = some 0 := by
    simp [findIdxOf, findIdxFrom, show isInstrHeader "答题说明" = true from by decide]
  have h1 : rowHasOther 0 ["X", a] = true := by
    simp [rowHasOther, rowHasOtherAux, ha]
  have h2 : rowHasOther 0 ["", b] = true := by
    simp [rowHasOther, rowHasOtherAux, hb]
  have h3 : rowHasOther 0 ["", c] = true := by
    simp [rowHasOther, rowHasOtherAux, hc]
  have h4 : rowHasOther 0 ["Y", d] = true := by
    simp [rowHasOther, rowHasOtherAux, hd]
  have h5 : rowHasOther 0 ["", e] = true := by
    simp [rowHasOther, rowHasOtherAux, he]
  have hscan : maxRowsOtherCols 0
      [["答题说明", h], ["X", a], ["", b], ["", c], ["Y", d], ["", e]] = 6 := by
    show maxRowsAux 0 0 _ = 6
    simp only [maxRowsAux, h1, h2, h3, h4, h5]
    cases hh : rowHasOther 0 ["答题说明", h] <;> simp [hh]
  rw [fill_cons_cons, fillCore_active _ _ 0 hfind, hscan]
  norm_num
  have e1 : ∀ last y, fillRow 0 last ["X", y] = ("X", ["X", y]) :=
    fun last y => fillRow_nonblank_cons last "X" y (by decide)
  have e2 : ∀ last y, fillRow 0 last ["Y", y] = ("Y", ["Y", y]) :=
    fun last y => fillRow_nonblank_cons last "Y" y (by decide)
  have e3 : ∀ y, fillRow 0 "X" ["", y] = ("X", ["X", y]) :=
    fun y => fillRow_blank_cons "X" y (by decide)
  have e4 : ∀ y, fillRow 0 "Y" ["", y] = ("Y", ["Y", y]) :=
    fun y => fillRow_blank_cons "Y" y (by decide)
  rw [show fillRows 0 "" 5 [["X", a], ["", b], ["", c], ["Y", d], ["", e]] =
      [["X", a], ["X", b], ["X", c], ["Y", d], ["Y", e]] from by
    simp only [fillRows, e1, e2, e3, e4]]
  rfl

/-- Witness for C6 at concrete non-blank other-column values. -/
theorem c6_witness :
    isBlank "r1" = false ∧ isBlank "r2" = false ∧ isBlank "r3" = false ∧
      isBlank "r4" = false ∧ isBlank "r5" = false ∧
      fill_answer_instruction_column
          [["答题说明", "hd"], ["X", "r1"], ["", "r2"], ["", "r3"], ["Y", "r4"], ["", "r5"]] =
        [["答题说明", "hd"], ["X", "r1"], ["X", "r2"], ["X", "r3"], ["Y", "r4"], ["Y", "r5"]] :=
  ⟨by decide, by decide, by decide, by decide, by decide,
    c6_fill_example "hd" "r1" "r2" "r3" "r4" "r5"
      (by decide) (by decide) (by decide) (by decide) (by decide)⟩
